import Mathlib

/-!
Shallow embedding of the Mayo Clinic guideline scraper
(`gap-replay/guidelines/scrapers/mayo/src/index.ts`).

The browser is abstracted as data: a section page provides the result of the
selector probe and of the element query; a guideline page provides its section
tabs; the traversal controller's environment provides, per attempt, either a
crash (navigation/extraction exception) or the discovered tabs.  JS objects
keyed by strings are modelled as insertion-ordered association lists where
assignment to an existing key updates in place and a new key is appended.
-/

namespace Mayo

/-! ## JS string primitives -/

/-- Whitespace recognised by `String.prototype.trim` (the ASCII part; the
pages' text never contains the exotic Unicode space characters). -/
def isJsWhitespace (c : Char) : Bool :=
  [' ', '\t', '\n', '\r', '\x0b', '\x0c'].contains c

/-- JS `s.trim()`: strip leading and trailing whitespace. -/
def jsTrim (s : String) : String :=
  String.mk (((s.data.dropWhile isJsWhitespace).reverse.dropWhile isJsWhitespace).reverse)

/-- Does `pat` occur as a contiguous substring?  Models `s.match(/lit/)` for a
regex consisting only of literal characters. -/
def hasSub (pat : List Char) : List Char → Bool
  | [] => pat.isEmpty
  | c :: cs => List.isPrefixOf pat (c :: cs) || hasSub pat cs

/-- `strHas s pat`: the string `s` contains `pat` as a substring. -/
def strHas (s pat : String) : Bool := hasSub pat.data s.data

/-- JS regex line terminators (not crossed by `.`). -/
def lineTerm (c : Char) : Bool :=
  ['\n', '\r', '\u2028', '\u2029'].contains c

/-- Models `s.match(/A.*A/)` for a literal `A` containing no line terminator:
two disjoint occurrences of `pat` with no line terminator between them. -/
def twoOccNoBreak (pat : List Char) : List Char → Bool
  | [] => false
  | c :: cs =>
    (List.isPrefixOf pat (c :: cs) &&
      hasSub pat (List.takeWhile (fun c2 => !lineTerm c2) (List.drop pat.length (c :: cs)))) ||
    twoOccNoBreak pat cs

/-- One token of a regex literal: a literal character or the wildcard `.`
(which in JS matches anything but a line terminator). -/
inductive PTok where
  | lit : Char → PTok
  | wild : PTok

def ptokOk : PTok → Char → Bool
  | PTok.lit c, c2 => c == c2
  | PTok.wild, c2 => !lineTerm c2

def pmatchAt : List PTok → List Char → Bool
  | [], _ => true
  | _ :: _, [] => false
  | t :: ts, c :: cs => ptokOk t c && pmatchAt ts cs

/-- Unanchored regex search for a token pattern. -/
def psearch (p : List PTok) : List Char → Bool
  | [] => pmatchAt p []
  | c :: cs => pmatchAt p (c :: cs) || psearch p cs

def litToks (s : String) : List PTok := s.data.map PTok.lit

/-! ## Configuration constants (from the source header) -/

def TOC_URL : String := "https://www.mayoclinic.org/diseases-conditions/index"
def BACKOFF_TIMEOUT_SEC : Nat := 10000
def FAILURE_BACKOFF_TIMEOUT_SEC : Nat := 300000
def CONTENT_SUBSELECTORS : List String := ["li", "h2", "p"]

/-- The regex `/mayoclinic.org\/diseases-conditions/` (the first dot is an
unescaped wildcard). -/
def domainPat : List PTok :=
  litToks "mayoclinic" ++ [PTok.wild] ++ litToks "org/diseases-conditions"

/-- The regex `/\/symptoms-causes/`. -/
def sympPat : List PTok := litToks "/symptoms-causes"

/-- The regex `/\/diagnosis-treatment/`. -/
def diagPat : List PTok := litToks "/diagnosis-treatment"

def urlDomainOk (url : String) : Bool := psearch domainPat url.data

def urlSubtypeOk (url : String) : Bool :=
  psearch sympPat url.data || psearch diagPat url.data

/-! ## JS objects as insertion-ordered association lists -/

/-- JS `obj[k] = v`: update in place if the key exists, else append. -/
def dictInsert {α : Type} (d : List (String × α)) (k : String) (v : α) :
    List (String × α) :=
  if d.any (fun p => p.1 == k) then
    d.map (fun p => if p.1 == k then (k, v) else p)
  else d ++ [(k, v)]

/-- JS `obj[k]` (as an option). -/
def dictLookup {α : Type} : List (String × α) → String → Option α
  | [], _ => none
  | p :: rest, k => if p.1 == k then some p.2 else dictLookup rest k

/-- The keys of an object, in insertion order. -/
def dictKeys {α : Type} (d : List (String × α)) : List String := d.map Prod.fst

/-! ## DOM classification pass (`getSectionContent`) -/

/-- One element matched by the content selector, as observed through the
page-context evaluations: its `tagName`, its `textContent` and the
ancestor `TAG.className` chain computed by the in-page walk. -/
structure Elem where
  tag : String
  text : String
  parentPath : String
deriving DecidableEq

/-- `parentPath.match(/DIV\.content.*DIV\.content/)`. -/
def twoDivContent (s : String) : Bool := twoOccNoBreak "DIV.content".data s.data

/-- The `toAvoid` denylist check: `['references', 'acces-list-container',
'tableofcontents'].some(x => parentPath.match(x))`. -/
def avoidHit (s : String) : Bool :=
  ["references", "acces-list-container", "tableofcontents"].any
    (fun p => strHas s p)

/-- Loop state of `getSectionContent`: `subsection_head`, `subsection_text`
and `subsection_dict`. -/
structure CState where
  head : String
  body : String
  dict : List (String × String)
deriving DecidableEq

/-- One iteration of the element loop in `getSectionContent`. -/
def classifyStep (st : CState) (el : Elem) : CState :=
  let t := jsTrim el.text
  if t == "" then st
  else if twoDivContent el.parentPath then st
  else if avoidHit el.parentPath then st
  else if el.tag == "H2" then
    if st.head == "" then { st with head := t }
    else { head := t, body := "", dict := dictInsert st.dict st.head (jsTrim st.body) }
  else if el.tag == "LI" then { st with body := st.body ++ "\n- " ++ t }
  else if el.tag == "P" then { st with body := st.body ++ "\n" ++ t }
  else st

def classifyLoop (els : List Elem) (st : CState) : CState := els.foldl classifyStep st

/-- A section page as the browser exposes it to `getSectionContent`:
whether `check_sel('div.content')` succeeds, and the elements matched by
`page.$$(sel)` for a given selector string, in document order. -/
structure SectionPage where
  hasDivContent : Bool
  query : String → List Elem

/-- Result of `getSectionContent`: the `subsection_dict` it returns, whether
the "Couldn't find content selector" message was printed, and the combined
content selector that was queried. -/
structure SectionResult where
  dict : List (String × String)
  logged : Bool
  selUsed : String
deriving DecidableEq

/-- `PuppeteerRun.getSectionContent`, with the page navigation already
performed (the settle wait is fire-and-forget in the source and changes no
observed data here). -/
def getSectionContent (pg : SectionPage) : SectionResult :=
  let base_sel := if pg.hasDivContent then "div.content" else "div.aem-GridColumn section"
  let selectors := CONTENT_SUBSELECTORS.map (fun subsel => base_sel ++ " " ++ subsel)
  if selectors.length == 0 then
    { dict := [], logged := true, selUsed := "" }
  else
    let content_selector := String.intercalate ", " selectors
    let els := pg.query content_selector
    { dict := (classifyLoop els { head := "", body := "", dict := [] }).dict,
      logged := false, selUsed := content_selector }

/-! ## Guideline extraction (`getGuideline`) -/

structure Guideline where
  name : String
  url : String
  content : List (String × List (String × String))
deriving DecidableEq

/-- One section tab discovered by `get_links(PAGE_SECTION_SELECTOR)`,
together with the section page its URL leads to. -/
structure Tab where
  label : String
  url : String
  page : SectionPage

/-- `section_name = el[0]!.replace(/&/g, '& ')`. -/
def escapeAmp (s : String) : String :=
  String.mk (s.data.flatMap (fun c => if c == '&' then ['&', ' '] else [c]))

/-- `section_name.match(/Symptoms|Diagnosis/)`. -/
def sectionKeep (sn : String) : Bool := strHas sn "Symptoms" || strHas sn "Diagnosis"

/-- Body of the section-tab loop in `getGuideline`: normalise the label,
keep only `Symptoms`/`Diagnosis` tabs, store the classified section. -/
def guidelineStep (content : List (String × List (String × String))) (t : Tab) :
    List (String × List (String × String)) :=
  let sn := escapeAmp t.label
  if sectionKeep sn then dictInsert content sn (getSectionContent t.page).dict
  else content

/-- `PuppeteerRun.getGuideline`. -/
def getGuideline (name url : String) (tabs : List Tab) : Guideline :=
  { name := name, url := url, content := tabs.foldl guidelineStep [] }

/-! ## Traversal controller (`scrape`), per-TOC-entry processing -/

/-- What one scraping attempt of a guideline yields from the environment:
either an exception from `page.goto`/`getGuideline` (crash) or the section
tabs the guideline page exposes. -/
inductive AttemptOutcome where
  | crash : AttemptOutcome
  | extracted : List Tab → AttemptOutcome

/-- JS truthiness of `!guideline.content`: `content` is always an object
(possibly the empty object `\x7b\x7d`), and every object is truthy, so the
negation is constantly `false`. -/
def contentFalsy (_c : List (String × List (String × String))) : Bool := false

/-- The spec's reading of the non-empty check, for comparison: content with
no sections counts as empty and should be treated as a failure. -/
def specContentEmpty (c : List (String × List (String × String))) : Bool := c.isEmpty

/-- JS `Set.add` on the `traversed_pages` set, modelled as an ordered list. -/
def setAdd (s : List String) (x : String) : List String :=
  if s.contains x then s else s ++ [x]

/-- Observable state of the controller: the `traversed_pages` set, the sink
file (list of appended records), the metadata file (list of appended names),
the sequence of `sleep` durations performed, and how many scraping attempts
were started. -/
structure ScrapeState where
  visited : List String
  sink : List Guideline
  meta : List String
  sleeps : List Nat
  attemptsMade : Nat
deriving DecidableEq

/-- The retry loop `for (let i = 0; i < 5; i++)` around one guideline:
sleep the short delay, navigate, extract, check `!guideline.content`,
save on success (sink + visited + metadata), sleep the long cooldown on any
caught exception.  Returns the updated state and `guideline_saved`. -/
def attemptLoop (name url : String) (outcome : Nat → AttemptOutcome) :
    Nat → Nat → ScrapeState → ScrapeState × Bool
  | _, 0, st => (st, false)
  | i, Nat.succ fuel, st =>
    let st1 : ScrapeState :=
      { st with sleeps := st.sleeps ++ [BACKOFF_TIMEOUT_SEC],
                attemptsMade := st.attemptsMade + 1 }
    match outcome i with
    | AttemptOutcome.crash =>
      attemptLoop name url outcome (i + 1) fuel
        { st1 with sleeps := st1.sleeps ++ [FAILURE_BACKOFF_TIMEOUT_SEC] }
    | AttemptOutcome.extracted tabs =>
      let gl := getGuideline name url tabs
      if contentFalsy gl.content then
        attemptLoop name url outcome (i + 1) fuel
          { st1 with sleeps := st1.sleeps ++ [FAILURE_BACKOFF_TIMEOUT_SEC] }
      else
        ({ st1 with sink := st1.sink ++ [gl],
                    visited := setAdd st1.visited name,
                    meta := st1.meta ++ [gl.name] }, true)

/-- Processing of one TOC `(name, url)` pair inside the per-letter loop:
the visited-set check, the two URL filters, then the 5-attempt retry loop. -/
def processPair (name url : String) (outcome : Nat → AttemptOutcome)
    (st : ScrapeState) : ScrapeState :=
  if st.visited.contains name then st
  else if !urlDomainOk url then st
  else if !urlSubtypeOk url then st
  else (attemptLoop name url outcome 0 5 st).1

/-- One TOC entry together with the environment's responses to the attempts
on it. -/
structure TocEntry where
  name : String
  url : String
  outcome : Nat → AttemptOutcome

/-- The inner loop over the TOC pairs of one letter. -/
def processTOC (entries : List TocEntry) (st : ScrapeState) : ScrapeState :=
  entries.foldl (fun st e => processPair e.name e.url e.outcome st) st

/-! ## The sink line: `JSON.stringify(guideline, null, 0) + '\n'` and its
re-parse.  The serializer follows `JSON.stringify` on a record of strings and
string-keyed objects (compact output, fields in insertion order `name`,
`url`, `content`); the parser follows `JSON.parse` restricted to that shape,
rebuilding each object left-to-right so that a duplicated key keeps the last
value, as a JS object would. -/

/-- The lower-case hex digit for `n < 16`, as `JSON.stringify` prints it. -/
def hexDigit (n : Nat) : Char :=
  Char.ofNat (if n < 10 then 48 + n else 87 + n)

/-- The value of one hex digit (either case), as `JSON.parse` reads it. -/
def hexVal (c : Char) : Option Nat :=
  let n := c.toNat
  if 48 ≤ n && n ≤ 57 then some (n - 48)
  else if 97 ≤ n && n ≤ 102 then some (n - 87)
  else if 65 ≤ n && n ≤ 70 then some (n - 55)
  else none

/-- `JSON.stringify`'s escaping of one character inside a string literal. -/
def escChar (c : Char) : List Char :=
  if c = '"' then ['\\', '"']
  else if c = '\\' then ['\\', '\\']
  else if c = '\n' then ['\\', 'n']
  else if c = '\r' then ['\\', 'r']
  else if c = '\t' then ['\\', 't']
  else if c = '\x08' then ['\\', 'b']
  else if c = '\x0c' then ['\\', 'f']
  else if c.toNat < 32 then
    ['\\', 'u', '0', '0', hexDigit (c.toNat / 16), hexDigit (c.toNat % 16)]
  else [c]

def escString (s : String) : List Char := s.data.flatMap escChar

/-- A JSON string literal, quotes included. -/
def jstr (s : String) : List Char := '"' :: (escString s ++ ['"'])

def jencEntry (p : String × String) : List Char := jstr p.1 ++ ':' :: jstr p.2

/-- The members of a non-empty object of string values, with the closing
brace; members are separated by commas. -/
def jencEntries : List (String × String) → List Char
  | [] => ['\x7d']
  | [p] => jencEntry p ++ ['\x7d']
  | p :: q :: rest => jencEntry p ++ ',' :: jencEntries (q :: rest)

def jencSubDict (d : List (String × String)) : List Char :=
  match d with
  | [] => ['\x7b', '\x7d']
  | _ => '\x7b' :: jencEntries d

def jencCEntry (p : String × List (String × String)) : List Char :=
  jstr p.1 ++ ':' :: jencSubDict p.2

def jencCEntries : List (String × List (String × String)) → List Char
  | [] => ['\x7d']
  | [p] => jencCEntry p ++ ['\x7d']
  | p :: q :: rest => jencCEntry p ++ ',' :: jencCEntries (q :: rest)

def jencContent (d : List (String × List (String × String))) : List Char :=
  match d with
  | [] => ['\x7b', '\x7d']
  | _ => '\x7b' :: jencCEntries d

/-- `JSON.stringify(guideline, null, 0)`. -/
def serializeGuideline (g : Guideline) : List Char :=
  '\x7b' :: (jstr "name" ++ ':' :: jstr g.name ++
    ',' :: jstr "url" ++ ':' :: jstr g.url ++
    ',' :: jstr "content" ++ ':' :: jencContent g.content ++ ['\x7d'])

/-- The line appended to the sink by `save_guideline`. -/
def sinkLine (g : Guideline) : List Char := serializeGuideline g ++ ['\n']

def unescShort (e : Char) : Option Char :=
  if e = '"' then some '"'
  else if e = '\\' then some '\\'
  else if e = '/' then some '/'
  else if e = 'b' then some '\x08'
  else if e = 'f' then some '\x0c'
  else if e = 'n' then some '\n'
  else if e = 'r' then some '\r'
  else if e = 't' then some '\t'
  else none

/-- Body of a JSON string literal (after the opening quote), fuelled by the
input length: returns the decoded characters and the input after the closing
quote. -/
def parseStrF : Nat → List Char → Option (List Char × List Char)
  | 0, _ => none
  | _ + 1, [] => none
  | f + 1, c :: rest =>
    if c = '"' then some ([], rest)
    else if c = '\\' then
      match rest with
      | [] => none
      | e :: rest2 =>
        if e = 'u' then
          match rest2 with
          | h1 :: h2 :: h3 :: h4 :: rest3 =>
            match hexVal h1, hexVal h2, hexVal h3, hexVal h4 with
            | some a, some b, some c2, some d =>
              (parseStrF f rest3).map
                (fun pr => (Char.ofNat (((a * 16 + b) * 16 + c2) * 16 + d) :: pr.1, pr.2))
            | _, _, _, _ => none
          | _ => none
        else
          match unescShort e with
          | some c2 => (parseStrF f rest2).map (fun pr => (c2 :: pr.1, pr.2))
          | none => none
    else (parseStrF f rest).map (fun pr => (c :: pr.1, pr.2))

/-- A JSON string literal, opening quote included. -/
def parseJStr (s : List Char) : Option (String × List Char) :=
  match s with
  | '"' :: rest => (parseStrF (rest.length + 1) rest).map
      (fun pr => (String.mk pr.1, pr.2))
  | _ => none

/-- Rebuild a JS object from parsed members: assignment left to right. -/
def jsObjFold {α : Type} (es : List (String × α)) : List (String × α) :=
  es.foldl (fun a p => dictInsert a p.1 p.2) []

/-- Members of a non-empty object of string values, consuming the closing
brace. -/
def parseEntriesF : Nat → List Char → Option (List (String × String) × List Char)
  | 0, _ => none
  | f + 1, s =>
    match parseJStr s with
    | some (k, ':' :: r2) =>
      match parseJStr r2 with
      | some (v, ',' :: r4) =>
        (parseEntriesF f r4).map (fun pr => ((k, v) :: pr.1, pr.2))
      | some (v, '\x7d' :: r4) => some ([(k, v)], r4)
      | _ => none
    | _ => none

def parseSubDict (s : List Char) : Option (List (String × String) × List Char) :=
  match s with
  | '\x7b' :: '\x7d' :: r => some ([], r)
  | '\x7b' :: r => (parseEntriesF r.length r).map (fun pr => (jsObjFold pr.1, pr.2))
  | _ => none

/-- Members of a non-empty object of object values, consuming the closing
brace. -/
def parseCEntriesF : Nat → List Char →
    Option (List (String × List (String × String)) × List Char)
  | 0, _ => none
  | f + 1, s =>
    match parseJStr s with
    | some (k, ':' :: r2) =>
      match parseSubDict r2 with
      | some (v, ',' :: r4) =>
        (parseCEntriesF f r4).map (fun pr => ((k, v) :: pr.1, pr.2))
      | some (v, '\x7d' :: r4) => some ([(k, v)], r4)
      | _ => none
    | _ => none

def parseContentDict (s : List Char) :
    Option (List (String × List (String × String)) × List Char) :=
  match s with
  | '\x7b' :: '\x7d' :: r => some ([], r)
  | '\x7b' :: r => (parseCEntriesF r.length r).map (fun pr => (jsObjFold pr.1, pr.2))
  | _ => none

/-- `JSON.parse` of a sink line, restricted to the record shape that
`save_guideline` produces. -/
def parseGuideline (s : List Char) : Option (Guideline × List Char) :=
  match s with
  | '\x7b' :: r0 =>
    match parseJStr r0 with
    | some (k1, ':' :: r1) =>
      if k1 = "name" then
        match parseJStr r1 with
        | some (nm, ',' :: r2) =>
          match parseJStr r2 with
          | some (k2, ':' :: r3) =>
            if k2 = "url" then
              match parseJStr r3 with
              | some (u, ',' :: r4) =>
                match parseJStr r4 with
                | some (k3, ':' :: r5) =>
                  if k3 = "content" then
                    match parseContentDict r5 with
                    | some (c, '\x7d' :: r6) => some ({ name := nm, url := u, content := c }, r6)
                    | _ => none
                  else none
                | _ => none
              | _ => none
            else none
          | _ => none
        | _ => none
      else none
    | _ => none
  | _ => none

/-! ## Concrete fixtures used by the claims -/

/-- The synthetic page of the tail-flush property: retained elements
`[H2 "A", P "x", LI "y", H2 "B", P "z"]` in document order. -/
def pageC1 : SectionPage :=
  { hasDivContent := true,
    query := fun _ => [
      { tag := "H2", text := "A", parentPath := "DIV.content BODY. HTML. " },
      { tag := "P", text := "x", parentPath := "DIV.content BODY. HTML. " },
      { tag := "LI", text := "y", parentPath := "UL. DIV.content BODY. HTML. " },
      { tag := "H2", text := "B", parentPath := "DIV.content BODY. HTML. " },
      { tag := "P", text := "z", parentPath := "DIV.content BODY. HTML. " }] }

/-- A paragraph whose ancestor chain shows `DIV.content` twice. -/
def elemNestedDup : Elem :=
  { tag := "P", text := "dup",
    parentPath := "DIV.content DIV.aem-Grid DIV.content BODY. HTML. " }

/-- Synthetic page containing `elemNestedDup` between two headings. -/
def pageNestedDup : SectionPage :=
  { hasDivContent := true,
    query := fun _ => [
      { tag := "H2", text := "S", parentPath := "DIV.content BODY. HTML. " },
      { tag := "P", text := "keep", parentPath := "DIV.content BODY. HTML. " },
      elemNestedDup,
      { tag := "H2", text := "End", parentPath := "DIV.content BODY. HTML. " }] }

/-- The same page with the duplicate element's chain showing `DIV.content`
only once: its text is retained. -/
def pageSingleContent : SectionPage :=
  { hasDivContent := true,
    query := fun _ => [
      { tag := "H2", text := "S", parentPath := "DIV.content BODY. HTML. " },
      { tag := "P", text := "keep", parentPath := "DIV.content BODY. HTML. " },
      { tag := "P", text := "dup", parentPath := "DIV.aem-Grid DIV.content BODY. HTML. " },
      { tag := "H2", text := "End", parentPath := "DIV.content BODY. HTML. " }] }

/-- Page with two identical retained `H2` headings (duplicate subsection
heading), parameterised by the two paragraph bodies. -/
def pageDupHeading (x y : String) : SectionPage :=
  { hasDivContent := true,
    query := fun _ => [
      { tag := "H2", text := "A", parentPath := "DIV.content BODY. HTML. " },
      { tag := "P", text := x, parentPath := "DIV.content BODY. HTML. " },
      { tag := "H2", text := "A", parentPath := "DIV.content BODY. HTML. " },
      { tag := "P", text := y, parentPath := "DIV.content BODY. HTML. " },
      { tag := "H2", text := "Z", parentPath := "DIV.content BODY. HTML. " }] }

/-- A tab labelled `Symptoms` leading to the given section page. -/
def tabSymptoms (pg : SectionPage) : Tab :=
  { label := "Symptoms", url := "https://www.mayoclinic.org/x", page := pg }

/-- A page where neither content selector matches anything. -/
def pageNoSel : SectionPage := { hasDivContent := false, query := fun _ => [] }

/-- A page where `div.content` probes true but the selectors match nothing. -/
def pageNoSelDiv : SectionPage := { hasDivContent := true, query := fun _ => [] }

/-- The empty controller state at the start of a run. -/
def st0 : ScrapeState :=
  { visited := [], sink := [], meta := [], sleeps := [], attemptsMade := 0 }

/-- A guideline URL accepted by both URL filters. -/
def urlGood : String :=
  "https://www.mayoclinic.org/diseases-conditions/achalasia/symptoms-causes/syc-20352850"

/-- An environment whose every attempt succeeds but discovers no section
tabs, so extraction returns a record with empty content. -/
def attemptEmptyTabs : Nat → AttemptOutcome := fun _ => AttemptOutcome.extracted []

/-- An environment whose every attempt crashes. -/
def attemptAllCrash : Nat → AttemptOutcome := fun _ => AttemptOutcome.crash

/-! ## Helper lemmas -/

theorem classifyStep_skip (st : CState) (el : Elem)
    (h : jsTrim el.text = "" ∨ twoDivContent el.parentPath = true ∨
      avoidHit el.parentPath = true) :
    classifyStep st el = st := by
  rcases h with h | h | h <;> simp [classifyStep, h]

theorem classifyStep_p (st : CState) (el : Elem) (htag : el.tag = "P")
    (hne : ¬ jsTrim el.text = "") (h2 : twoDivContent el.parentPath = false)
    (h3 : avoidHit el.parentPath = false) :
    classifyStep st el = { st with body := st.body ++ "\n" ++ jsTrim el.text } := by
  simp [classifyStep, htag, hne, h2, h3]

theorem classifyStep_h2_flush (st : CState) (el : Elem) (htag : el.tag = "H2")
    (hne : ¬ jsTrim el.text = "") (h2 : twoDivContent el.parentPath = false)
    (h3 : avoidHit el.parentPath = false) (hh : ¬ st.head = "") :
    classifyStep st el =
      { head := jsTrim el.text, body := "",
        dict := dictInsert st.dict st.head (jsTrim st.body) } := by
  simp [classifyStep, htag, hne, h2, h3, hh]

theorem dictLookup_isSome_any {α : Type} (d : List (String × α)) (k : String) :
    (dictLookup d k).isSome = d.any (fun p => p.1 == k) := by
  induction d with
  | nil => rfl
  | cons p rest ih => by_cases h : p.1 = k <;> simp [dictLookup, h, ih]

theorem dictInsert_lookup_imp {α : Type} (d : List (String × α)) (k : String) (v : α)
    (q : String) (h : (dictLookup (dictInsert d k v) q).isSome = true) :
    q = k ∨ (dictLookup d q).isSome = true := by
  rw [dictLookup_isSome_any] at h
  rw [dictLookup_isSome_any]
  unfold dictInsert at h
  by_cases hany : d.any (fun p => p.1 == k) = true
  · rw [if_pos hany, List.any_map, List.any_eq_true] at h
    obtain ⟨p, hp, hpq⟩ := h
    by_cases hpk : p.1 = k
    · left
      simp only [Function.comp, hpk, beq_self_eq_true, if_true, beq_iff_eq] at hpq
      exact hpq.symm
    · right
      simp only [Function.comp, beq_iff_eq, hpk, if_false] at hpq
      rw [List.any_eq_true]
      exact ⟨p, hp, by simp [hpq]⟩
  · rw [if_neg hany, List.any_append] at h
    simp only [List.any_cons, List.any_nil, Bool.or_false] at h
    rcases Bool.or_eq_true_iff.mp h with h2 | h2
    · exact Or.inr h2
    · exact Or.inl (beq_iff_eq.mp h2).symm

theorem guidelineFold_keys :
    ∀ (tabs : List Tab) (acc : List (String × List (String × String))) (k : String),
      (dictLookup (tabs.foldl guidelineStep acc) k).isSome = true →
      (dictLookup acc k).isSome = true ∨
        ∃ t ∈ tabs, k = escapeAmp t.label ∧ sectionKeep (escapeAmp t.label) = true := by
  intro tabs
  induction tabs with
  | nil => intro acc k h; exact Or.inl h
  | cons t ts ih =>
    intro acc k h
    rw [List.foldl_cons] at h
    rcases ih _ k h with h2 | ⟨t', ht', hk⟩
    · unfold guidelineStep at h2
      by_cases hkeep : sectionKeep (escapeAmp t.label) = true
      · simp only [hkeep, if_true] at h2
        rcases dictInsert_lookup_imp _ _ _ _ h2 with hqk | hacc
        · exact Or.inr ⟨t, List.mem_cons_self t ts, hqk, hkeep⟩
        · exact Or.inl hacc
      · simp only [Bool.not_eq_true] at hkeep
        simp only [hkeep, Bool.false_eq_true, if_false] at h2
        exact Or.inl h2
    · exact Or.inr ⟨t', List.mem_cons_of_mem t ht', hk⟩

theorem attemptLoop_attempts_le (name url : String) (o : Nat → AttemptOutcome) :
    ∀ (fuel i : Nat) (st : ScrapeState),
      ((attemptLoop name url o i fuel st).1).attemptsMade ≤ st.attemptsMade + fuel := by
  intro fuel
  induction fuel with
  | zero => intro i st; simp [attemptLoop]
  | succ f ih =>
    intro i st
    rw [attemptLoop]
    cases o i with
    | crash =>
      refine le_trans (ih (i + 1) _) ?_
      simp
      omega
    | extracted tabs =>
      simp only [contentFalsy, Bool.false_eq_true, if_false]
      simp

/-! ## Claims -/

/-- C1: on the synthetic page whose retained elements in document order are
`[H2 "A", P "x", LI "y", H2 "B", P "z"]`, the classification pass returns a
mapping sending "A" to `"x\n- y"` (paragraph appended as newline plus text,
list item as newline plus "- " plus text, body trimmed) and containing no
key "B": the final open heading/body pair is never flushed after the loop. -/
theorem c1_tail_flush_drop :
    (getSectionContent pageC1).dict = [("A", "x\n- y")] ∧
    dictLookup (getSectionContent pageC1).dict "B" = none := by
  exact ⟨by decide, by decide⟩

/-- C2 (code bug): the controller's emptiness check `if (!guideline.content)`
tests JS truthiness of an object, which is always truthy, so a record with an
empty content mapping is appended to the sink as a success instead of
raising and being retried: at a TOC pair passing both URL filters whose page
exposes no section tabs, the empty record lands in the sink, although the
content is empty in the spec's sense and the code's own check never fires. -/
theorem c2_empty_content_saved :
    (processPair "Achalasia" urlGood attemptEmptyTabs st0).sink =
      [{ name := "Achalasia", url := urlGood, content := [] }] ∧
    specContentEmpty (getGuideline "Achalasia" urlGood []).content = true ∧
    contentFalsy (getGuideline "Achalasia" urlGood []).content = false := by
  exact ⟨by decide, rfl, rfl⟩

/-- C3: a TOC pair whose name is already in the `traversed_pages` set is
skipped entirely — whatever its URL and whatever the environment would
answer, the controller state (sink, visited set, metadata, sleeps, attempt
count) is unchanged: deduplication is by display name only. -/
theorem c3_visited_skip (name url : String) (outcome : Nat → AttemptOutcome)
    (st : ScrapeState) (h : st.visited.contains name = true) :
    processPair name url outcome st = st := by
  unfold processPair
  rw [if_pos h]

theorem c3_visited_skip_witness :
    processPair "Achalasia"
      "https://www.mayoclinic.org/diseases-conditions/other/symptoms-causes/syc-1"
      attemptAllCrash { st0 with visited := ["Achalasia"] } =
      { st0 with visited := ["Achalasia"] } :=
  c3_visited_skip _ _ _ _ (by decide)

/-- C5: for a pair not already visited, the controller skips (state
unchanged, no extraction attempt) any pair whose URL fails the
disease-content domain pattern, and any pair whose URL passes the domain but
matches neither content-subtype pattern; only pairs passing both filters
reach the 5-attempt retry loop. -/
theorem c5_url_filters (name url : String) (outcome : Nat → AttemptOutcome)
    (st : ScrapeState) (hnv : st.visited.contains name = false) :
    (urlDomainOk url = false → processPair name url outcome st = st) ∧
    (urlDomainOk url = true → urlSubtypeOk url = false →
      processPair name url outcome st = st) ∧
    (urlDomainOk url = true → urlSubtypeOk url = true →
      processPair name url outcome st = (attemptLoop name url outcome 0 5 st).1) := by
  have hnv2 : ¬ st.visited.contains name = true := by
    rw [hnv]; exact Bool.false_ne_true
  refine ⟨fun h1 => ?_, fun h1 h2 => ?_, fun h1 h2 => ?_⟩ <;>
    unfold processPair <;> rw [if_neg hnv2]
  · rw [if_pos (by simp [h1])]
  · rw [if_neg (by simp [h1]), if_pos (by simp [h2])]
  · rw [if_neg (by simp [h1]), if_neg (by simp [h2])]

theorem c5_url_filters_witness :
    processPair "Flu" "https://www.webmd.com/flu/symptoms-causes" attemptAllCrash st0 = st0 :=
  (c5_url_filters "Flu" _ attemptAllCrash st0 (by decide)).1 (by decide)

/-- C7: an element contributes nothing to the classification pass when its
trimmed text is empty, when its ancestor tag+class chain shows `DIV.content`
twice, or when the chain contains one of the denylist substrings — deleting
such an element anywhere in the walked list leaves the state unchanged.  In
particular, on the synthetic page whose "dup" paragraph sits under a nested
duplicate `div.content`, that text is excluded, while the same page with a
single `div.content` chain keeps it. -/
theorem c7_skip_conditions (el : Elem)
    (h : jsTrim el.text = "" ∨ twoDivContent el.parentPath = true ∨
      avoidHit el.parentPath = true) :
    (∀ (pre post : List Elem) (st : CState),
      classifyLoop (pre ++ el :: post) st = classifyLoop (pre ++ post) st) ∧
    (getSectionContent pageNestedDup).dict = [("S", "keep")] ∧
    (getSectionContent pageSingleContent).dict = [("S", "keep\ndup")] := by
  refine ⟨fun pre post st => ?_, by decide, by decide⟩
  have hs : ∀ st2 : CState, classifyStep st2 el = st2 :=
    fun st2 => classifyStep_skip st2 el h
  simp [classifyLoop, List.foldl_append, hs]

theorem c7_skip_conditions_witness :
    classifyLoop ([{ tag := "H2", text := "S", parentPath := "DIV.content " }] ++
        elemNestedDup :: []) { head := "", body := "", dict := [] } =
      classifyLoop ([{ tag := "H2", text := "S", parentPath := "DIV.content " }] ++ [])
        { head := "", body := "", dict := [] } :=
  (c7_skip_conditions elemNestedDup (Or.inr (Or.inl (by decide)))).1 _ _ _

/-- C8 counterexample: on a page where neither candidate selector matches
anything (`div.content` probe fails and the fallback matches no element),
`getSectionContent` does return an empty mapping, but the "Couldn't find
content selector" message is never printed — refuting the claim that it
"returns an empty mapping and logs a message". -/
theorem c8_no_log_counterexample :
    (getSectionContent pageNoSel).dict = [] ∧
    (getSectionContent pageNoSel).logged = false := by
  exact ⟨rfl, rfl⟩

/-- C8 (amended): the pass probes `div.content` first and otherwise uses the
grid-column/section fallback without probing it; when neither candidate
selector matches any element it returns an empty mapping through the normal
loop, and no message is logged — the logging branch is unreachable because
the subselector list is the constant `[li, h2, p]`. -/
theorem c8_selector_fallback (pg : SectionPage) (hq : ∀ s, pg.query s = []) :
    getSectionContent pg =
      { dict := [], logged := false,
        selUsed := if pg.hasDivContent then
            "div.content li, div.content h2, div.content p"
          else
            "div.aem-GridColumn section li, div.aem-GridColumn section h2, div.aem-GridColumn section p" } := by
  cases hpg : pg.hasDivContent <;>
    simp [getSectionContent, hpg, hq, CONTENT_SUBSELECTORS, classifyLoop,
      String.intercalate] <;> decide

theorem c8_selector_fallback_witness :
    getSectionContent pageNoSelDiv =
      { dict := [], logged := false,
        selUsed := "div.content li, div.content h2, div.content p" } := by
  have h := c8_selector_fallback pageNoSelDiv (fun _ => rfl)
  simpa using h

/-- C10: when two retained `H2` elements on one page carry identical text,
the mapping keeps only the body accumulated after the second occurrence —
the overwrite loses the earlier text entirely (the result does not mention
the first body); likewise a duplicated section label in `getGuideline` keeps
only the last section's mapping. -/
theorem c10_last_body_wins (x y : String) (p1 p2 : SectionPage)
    (hx : ¬ jsTrim x = "") (hy : ¬ jsTrim y = "") :
    (getSectionContent (pageDupHeading x y)).dict =
      [("A", jsTrim ("" ++ "\n" ++ jsTrim y))] ∧
    (getGuideline "N" "U" [tabSymptoms p1, tabSymptoms p2]).content =
      [("Symptoms", (getSectionContent p2).dict)] := by
  have hpath2 : twoDivContent "DIV.content BODY. HTML. " = false := by decide
  have hpath3 : avoidHit "DIV.content BODY. HTML. " = false := by decide
  constructor
  · show (getSectionContent
      { hasDivContent := true,
        query := fun _ => [
          { tag := "H2", text := "A", parentPath := "DIV.content BODY. HTML. " },
          { tag := "P", text := x, parentPath := "DIV.content BODY. HTML. " },
          { tag := "H2", text := "A", parentPath := "DIV.content BODY. HTML. " },
          { tag := "P", text := y, parentPath := "DIV.content BODY. HTML. " },
          { tag := "H2", text := "Z", parentPath := "DIV.content BODY. HTML. " }] }).dict = _
    simp only [getSectionContent]
    simp only [CONTENT_SUBSELECTORS, List.map_cons, List.map_nil, List.length,
      Nat.succ_ne_zero, beq_iff_eq, if_false, reduceIte]
    simp only [classifyLoop, List.foldl_cons, List.foldl_nil]
    have h1 : classifyStep { head := "", body := "", dict := [] }
        { tag := "H2", text := "A", parentPath := "DIV.content BODY. HTML. " } =
        { head := "A", body := "", dict := [] } := by decide
    have h2 : classifyStep { head := "A", body := "", dict := [] }
        { tag := "P", text := x, parentPath := "DIV.content BODY. HTML. " } =
        { head := "A", body := "" ++ "\n" ++ jsTrim x, dict := [] } := by
      rw [classifyStep_p _ _ rfl hx hpath2 hpath3]
    have h3 : classifyStep { head := "A", body := "" ++ "\n" ++ jsTrim x, dict := [] }
        { tag := "H2", text := "A", parentPath := "DIV.content BODY. HTML. " } =
        { head := "A", body := "", dict := [("A", jsTrim ("" ++ "\n" ++ jsTrim x))] } := by
      rw [classifyStep_h2_flush _ _ rfl (by decide) hpath2 hpath3 (by simp)]
      simp [dictInsert, show jsTrim "A" = "A" from by decide]
    have h4 : classifyStep
        { head := "A", body := "", dict := [("A", jsTrim ("" ++ "\n" ++ jsTrim x))] }
        { tag := "P", text := y, parentPath := "DIV.content BODY. HTML. " } =
        { head := "A", body := "" ++ "\n" ++ jsTrim y,
          dict := [("A", jsTrim ("" ++ "\n" ++ jsTrim x))] } := by
      rw [classifyStep_p _ _ rfl hy hpath2 hpath3]
    have h5 : classifyStep
        { head := "A", body := "" ++ "\n" ++ jsTrim y,
          dict := [("A", jsTrim ("" ++ "\n" ++ jsTrim x))] }
        { tag := "H2", text := "Z", parentPath := "DIV.content BODY. HTML. " } =
        { head := "Z", body := "", dict := [("A", jsTrim ("" ++ "\n" ++ jsTrim y))] } := by
      rw [classifyStep_h2_flush _ _ rfl (by decide) hpath2 hpath3 (by simp)]
      simp [dictInsert, show jsTrim "Z" = "Z" from by decide]
    rw [h1, h2, h3, h4, h5]
  · show ([tabSymptoms p1, tabSymptoms p2].foldl guidelineStep []) = _
    have hg1 : guidelineStep [] (tabSymptoms p1) =
        [("Symptoms", (getSectionContent p1).dict)] := by
      unfold guidelineStep tabSymptoms
      simp [dictInsert, show escapeAmp "Symptoms" = "Symptoms" from by decide,
        show sectionKeep "Symptoms" = true from by decide]
    have hg2 : guidelineStep [("Symptoms", (getSectionContent p1).dict)]
        (tabSymptoms p2) = [("Symptoms", (getSectionContent p2).dict)] := by
      unfold guidelineStep tabSymptoms
      simp [dictInsert, show escapeAmp "Symptoms" = "Symptoms" from by decide,
        show sectionKeep "Symptoms" = true from by decide]
    rw [List.foldl_cons, hg1, List.foldl_cons, hg2, List.foldl_nil]

theorem c10_last_body_wins_witness :
    (getSectionContent (pageDupHeading "x" "y")).dict =
      [("A", jsTrim ("" ++ "\n" ++ jsTrim "y"))] ∧
    (getGuideline "N" "U" [tabSymptoms pageNoSel, tabSymptoms pageNoSelDiv]).content =
      [("Symptoms", (getSectionContent pageNoSelDiv).dict)] :=
  c10_last_body_wins "x" "y" pageNoSel pageNoSelDiv (by decide) (by decide)

/-- C4: at an accepted TOC pair whose every attempt fails, the controller
makes exactly 5 attempts, sleeps the short delay before each and the long
cooldown (30 times the short delay) after each failure, saves nothing, does
not add the name to the visited set, and processing continues with the next
TOC entry; for any environment at most 5 attempts are ever started. -/
theorem c4_retry_exhaustion (name url : String) (outcome : Nat → AttemptOutcome)
    (st : ScrapeState) (rest : List TocEntry)
    (hnv : st.visited.contains name = false)
    (hd : urlDomainOk url = true) (hs : urlSubtypeOk url = true)
    (hc : ∀ i, outcome i = AttemptOutcome.crash) :
    FAILURE_BACKOFF_TIMEOUT_SEC = 30 * BACKOFF_TIMEOUT_SEC ∧
    (processPair name url outcome st).visited = st.visited ∧
    (processPair name url outcome st).sink = st.sink ∧
    (processPair name url outcome st).meta = st.meta ∧
    (processPair name url outcome st).attemptsMade = st.attemptsMade + 5 ∧
    (processPair name url outcome st).sleeps = st.sleeps ++
      [BACKOFF_TIMEOUT_SEC, FAILURE_BACKOFF_TIMEOUT_SEC, BACKOFF_TIMEOUT_SEC,
       FAILURE_BACKOFF_TIMEOUT_SEC, BACKOFF_TIMEOUT_SEC, FAILURE_BACKOFF_TIMEOUT_SEC,
       BACKOFF_TIMEOUT_SEC, FAILURE_BACKOFF_TIMEOUT_SEC, BACKOFF_TIMEOUT_SEC,
       FAILURE_BACKOFF_TIMEOUT_SEC] ∧
    (∀ (o : Nat → AttemptOutcome) (st2 : ScrapeState),
      (processPair name url o st2).attemptsMade ≤ st2.attemptsMade + 5) ∧
    processTOC ({ name := name, url := url, outcome := outcome } :: rest) st =
      processTOC rest (processPair name url outcome st) := by
  have hnv2 : ¬ st.visited.contains name = true := by
    rw [hnv]; exact Bool.false_ne_true
  have hpp : processPair name url outcome st = (attemptLoop name url outcome 0 5 st).1 := by
    unfold processPair
    rw [if_neg hnv2, if_neg (by simp [hd]), if_neg (by simp [hs])]
  refine ⟨by decide, ?_, ?_, ?_, ?_, ?_, ?_, ?_⟩
  · rw [hpp]; simp [attemptLoop, hc 0, hc 1, hc 2, hc 3, hc 4]
  · rw [hpp]; simp [attemptLoop, hc 0, hc 1, hc 2, hc 3, hc 4]
  · rw [hpp]; simp [attemptLoop, hc 0, hc 1, hc 2, hc 3, hc 4]
  · rw [hpp]; simp [attemptLoop, hc 0, hc 1, hc 2, hc 3, hc 4]
  · rw [hpp]; simp [attemptLoop, hc 0, hc 1, hc 2, hc 3, hc 4]
  · intro o st2
    unfold processPair
    by_cases hv : st2.visited.contains name = true
    · rw [if_pos hv]; omega
    · rw [if_neg hv]
      by_cases h1 : (!urlDomainOk url) = true
      · rw [if_pos h1]; omega
      · rw [if_neg h1]
        by_cases h2 : (!urlSubtypeOk url) = true
        · rw [if_pos h2]; omega
        · rw [if_neg h2]
          exact attemptLoop_attempts_le name url o 5 0 st2
  · simp [processTOC]

theorem c4_retry_exhaustion_witness :
    (processPair "Achalasia" urlGood attemptAllCrash st0).sleeps = st0.sleeps ++
      [BACKOFF_TIMEOUT_SEC, FAILURE_BACKOFF_TIMEOUT_SEC, BACKOFF_TIMEOUT_SEC,
       FAILURE_BACKOFF_TIMEOUT_SEC, BACKOFF_TIMEOUT_SEC, FAILURE_BACKOFF_TIMEOUT_SEC,
       BACKOFF_TIMEOUT_SEC, FAILURE_BACKOFF_TIMEOUT_SEC, BACKOFF_TIMEOUT_SEC,
       FAILURE_BACKOFF_TIMEOUT_SEC] :=
  (c4_retry_exhaustion "Achalasia" urlGood attemptAllCrash st0 [] (by decide)
    (by decide) (by decide) (fun _ => rfl)).2.2.2.2.2.1

/-- C6: every key of the content mapping assembled by `getGuideline` comes
from some discovered tab, equals that tab's label normalised by replacing
each `&` with `& `, and contains `Symptoms` or `Diagnosis` as a
(case-sensitive) substring — tabs failing the filter contribute nothing. -/
theorem c6_tab_filter (name url : String) (tabs : List Tab) (k : String)
    (h : (dictLookup (getGuideline name url tabs).content k).isSome = true) :
    ∃ t ∈ tabs, k = escapeAmp t.label ∧ sectionKeep (escapeAmp t.label) = true := by
  have h2 := guidelineFold_keys tabs [] k (by simpa [getGuideline] using h)
  rcases h2 with h2 | h2
  · simp [dictLookup] at h2
  · exact h2

theorem c6_tab_filter_witness :
    ∃ t ∈ [tabSymptoms pageNoSel], "Symptoms" = escapeAmp t.label ∧
      sectionKeep (escapeAmp t.label) = true :=
  c6_tab_filter "N" "U" [tabSymptoms pageNoSel] "Symptoms" (by decide)

/-! ## Round trip of the sink line -/

theorem strMkData (s : String) : String.mk s.data = s := by cases s; rfl

theorem hexVal_hexDigit : ∀ n < 16, hexVal (hexDigit n) = some n := by decide

theorem escChar_length_pos (c : Char) : 1 ≤ (escChar c).length := by
  unfold escChar
  repeat' split
  all_goals simp

theorem length_le_flatMap_escChar (cs : List Char) :
    cs.length ≤ (cs.flatMap escChar).length := by
  induction cs with
  | nil => simp
  | cons c cs ih =>
    simp only [List.flatMap_cons, List.length_append, List.length_cons]
    have := escChar_length_pos c
    omega

theorem parseStrF_escChar (c : Char) (f : Nat) (t : List Char) :
    parseStrF (f + 1) (escChar c ++ t) =
      (parseStrF f t).map (fun pr => (c :: pr.1, pr.2)) := by
  by_cases h1 : c = '"'
  · subst h1; simp [escChar, parseStrF, unescShort]
  by_cases h2 : c = '\\'
  · subst h2; simp [escChar, parseStrF, unescShort]
  by_cases h3 : c = '\n'
  · subst h3; simp [escChar, parseStrF, unescShort]
  by_cases h4 : c = '\r'
  · subst h4; simp [escChar, parseStrF, unescShort]
  by_cases h5 : c = '\t'
  · subst h5; simp [escChar, parseStrF, unescShort]
  by_cases h6 : c = '\x08'
  · subst h6; simp [escChar, parseStrF, unescShort]
  by_cases h7 : c = '\x0c'
  · subst h7; simp [escChar, parseStrF, unescShort]
  by_cases h8 : c.toNat < 32
  · have hesc : escChar c = ['\\', 'u', '0', '0',
        hexDigit (c.toNat / 16), hexDigit (c.toNat % 16)] := by
      unfold escChar
      rw [if_neg h1, if_neg h2, if_neg h3, if_neg h4, if_neg h5, if_neg h6,
        if_neg h7, if_pos h8]
    have hhi := hexVal_hexDigit (c.toNat / 16) (by omega)
    have hlo := hexVal_hexDigit (c.toNat % 16) (by omega)
    rw [hesc]
    simp only [List.cons_append, List.nil_append]
    rw [parseStrF]
    simp only [reduceIte, hhi, hlo, show hexVal '0' = some 0 from by decide]
    rw [if_neg (show ¬('\\' = '"') from by decide)]
    have harith : ((0 * 16 + 0) * 16 + c.toNat / 16) * 16 + c.toNat % 16 = c.toNat := by
      omega
    rw [harith, Char.ofNat_toNat]
  · have hesc : escChar c = [c] := by
      unfold escChar
      rw [if_neg h1, if_neg h2, if_neg h3, if_neg h4, if_neg h5, if_neg h6,
        if_neg h7, if_neg h8]
    rw [hesc]
    simp only [List.cons_append, List.nil_append]
    rw [parseStrF.eq_def]
    simp only []
    rw [if_neg h1, if_neg h2]

theorem parseStrF_complete : ∀ (cs : List Char) (fuel : Nat) (rest : List Char),
    cs.length + 1 ≤ fuel →
    parseStrF fuel (cs.flatMap escChar ++ '"' :: rest) = some (cs, rest) := by
  intro cs
  induction cs with
  | nil =>
    intro fuel rest h
    obtain ⟨f, rfl⟩ : ∃ f, fuel = f + 1 := ⟨fuel - 1, by omega⟩
    simp [parseStrF]
  | cons c cs ih =>
    intro fuel rest h
    obtain ⟨f, rfl⟩ : ∃ f, fuel = f + 1 := ⟨fuel - 1, by omega⟩
    have hf : cs.length + 1 ≤ f := by
      simp only [List.length_cons] at h
      omega
    rw [List.flatMap_cons, List.append_assoc, parseStrF_escChar, ih f rest hf]
    rfl

theorem parseJStr_complete (s : String) (t : List Char) :
    parseJStr (jstr s ++ t) = some (s, t) := by
  have hshape : jstr s ++ t = '"' :: (s.data.flatMap escChar ++ '"' :: t) := by
    simp [jstr, escString]
  rw [hshape]
  have hlen : s.data.length + 1 ≤ (s.data.flatMap escChar ++ '"' :: t).length + 1 := by
    have := length_le_flatMap_escChar s.data
    simp only [List.length_append, List.length_cons]
    omega
  simp only [parseJStr]
  rw [parseStrF_complete s.data _ t hlen]
  simp [strMkData]

theorem jencEntries_length : ∀ d : List (String × String),
    d.length ≤ (jencEntries d).length := by
  intro d
  induction d with
  | nil => simp [jencEntries]
  | cons p d ih =>
    cases d with
    | nil => simp [jencEntries]
    | cons q rest =>
      simp only [jencEntries, List.length_append, List.length_cons] at ih ⊢
      omega

theorem parseEntriesF_complete : ∀ (d : List (String × String)), d ≠ [] →
    ∀ (fuel : Nat) (rest : List Char), d.length ≤ fuel →
    parseEntriesF fuel (jencEntries d ++ rest) = some (d, rest) := by
  intro d
  induction d with
  | nil => intro h; exact absurd rfl h
  | cons p d ih =>
    intro _ fuel rest hlen
    obtain ⟨f, rfl⟩ : ∃ f, fuel = f + 1 :=
      ⟨fuel - 1, by simp only [List.length_cons] at hlen; omega⟩
    cases d with
    | nil =>
      have hshape : jencEntries [p] ++ rest =
          jstr p.1 ++ (':' :: (jstr p.2 ++ ('\x7d' :: rest))) := by
        simp [jencEntries, jencEntry]
      rw [hshape]
      simp [parseEntriesF, parseJStr_complete]
    | cons q d2 =>
      have hshape : jencEntries (p :: q :: d2) ++ rest =
          jstr p.1 ++ (':' :: (jstr p.2 ++ (',' :: (jencEntries (q :: d2) ++ rest)))) := by
        simp [jencEntries, jencEntry]
      rw [hshape]
      have hrec := ih (by simp) f rest
        (by simp only [List.length_cons] at hlen ⊢; omega)
      simp [parseEntriesF, parseJStr_complete, hrec]

theorem dictKeys_dictInsert_of_any {α : Type} (d : List (String × α)) (k : String)
    (v : α) (h : d.any (fun p => p.1 == k) = true) :
    dictKeys (dictInsert d k v) = dictKeys d := by
  unfold dictInsert dictKeys
  rw [if_pos h, List.map_map]
  apply List.map_congr_left
  intro p _
  by_cases hpk : p.1 = k
  · simp [Function.comp, hpk]
  · simp [Function.comp, hpk]

theorem dictInsert_keys_nodup {α : Type} (d : List (String × α)) (k : String)
    (v : α) (h : (dictKeys d).Nodup) : (dictKeys (dictInsert d k v)).Nodup := by
  by_cases hany : d.any (fun p => p.1 == k) = true
  · rw [dictKeys_dictInsert_of_any _ _ _ hany]; exact h
  · unfold dictInsert dictKeys
    rw [if_neg hany, List.map_append]
    rw [List.nodup_append]
    refine ⟨h, by simp, ?_⟩
    intro a ha hb
    simp only [List.map_cons, List.map_nil, List.mem_singleton] at hb
    subst hb
    rcases List.mem_map.mp ha with ⟨q, hq, hqa⟩
    exact hany (List.any_eq_true.mpr ⟨q, hq, by simp [hqa]⟩)

theorem dictInsert_mem {α : Type} {d : List (String × α)} {k : String} {v : α}
    {p : String × α} (h : p ∈ dictInsert d k v) : p.2 = v ∨ p ∈ d := by
  unfold dictInsert at h
  split at h
  · rcases List.mem_map.mp h with ⟨q, hq, hfq⟩
    by_cases hqk : q.1 = k
    · left; rw [← hfq]; simp [hqk]
    · right
      rw [← hfq]
      simp only [beq_iff_eq, hqk, if_false]
      exact hq
  · rcases List.mem_append.mp h with hd | hkv
    · exact Or.inr hd
    · left
      simp only [List.mem_singleton] at hkv
      rw [hkv]

theorem foldl_dictInsert_eq_append {α : Type} :
    ∀ (es acc : List (String × α)), (dictKeys (acc ++ es)).Nodup →
    es.foldl (fun a p => dictInsert a p.1 p.2) acc = acc ++ es := by
  intro es
  induction es with
  | nil => intro acc _; simp
  | cons p es ih =>
    intro acc hnd
    obtain ⟨k, v⟩ := p
    have hkn : ¬ k ∈ dictKeys acc := by
      intro hk
      rw [dictKeys, List.map_append, List.nodup_append] at hnd
      exact hnd.2.2 hk (by simp)
    have hany : acc.any (fun q => q.1 == k) = false := by
      rw [List.any_eq_false]
      intro q hq
      simp only [beq_iff_eq]
      intro hqk
      exact hkn (List.mem_map.mpr ⟨q, hq, hqk⟩)
    have hins : dictInsert acc k v = acc ++ [(k, v)] := by
      unfold dictInsert
      rw [if_neg (by simp [hany])]
    rw [List.foldl_cons, hins, ih (acc ++ [(k, v)])
      (by rw [← List.append_cons]; exact hnd)]
    simp

theorem jsObjFold_eq {α : Type} (es : List (String × α))
    (h : (dictKeys es).Nodup) : jsObjFold es = es := by
  have := foldl_dictInsert_eq_append es [] (by simpa [dictKeys] using h)
  simpa [jsObjFold] using this

theorem jstr_cons (s : String) : jstr s = '"' :: (escString s ++ ['"']) := rfl

theorem jencEntries_head (p : String × String) (d : List (String × String)) :
    ∃ tl, jencEntries (p :: d) = '"' :: tl := by
  cases d with
  | nil =>
    exact ⟨(escString p.1 ++ ['"']) ++ ((':' :: jstr p.2) ++ ['\x7d']), by
      simp [jencEntries, jencEntry, jstr_cons]⟩
  | cons q d3 =>
    exact ⟨(escString p.1 ++ ['"']) ++ ((':' :: jstr p.2) ++
      (',' :: jencEntries (q :: d3))), by
      simp [jencEntries, jencEntry, jstr_cons]⟩

theorem parseSubDict_cons (r : List Char) :
    parseSubDict ('\x7b' :: '"' :: r) =
      (parseEntriesF ('"' :: r).length ('"' :: r)).map
        (fun pr => (jsObjFold pr.1, pr.2)) := rfl

theorem parseSubDict_complete (d : List (String × String))
    (h : (dictKeys d).Nodup) (rest : List Char) :
    parseSubDict (jencSubDict d ++ rest) = some (d, rest) := by
  cases d with
  | nil => simp [jencSubDict, parseSubDict]
  | cons p d2 =>
    obtain ⟨tl, htl⟩ := jencEntries_head p d2
    have hshape : jencSubDict (p :: d2) ++ rest = '\x7b' :: ('"' :: (tl ++ rest)) := by
      simp [jencSubDict, htl]
    rw [hshape, parseSubDict_cons]
    have harg : ('"' : Char) :: (tl ++ rest) = jencEntries (p :: d2) ++ rest := by
      rw [htl]; simp
    rw [harg]
    have hfuel : (p :: d2).length ≤ (jencEntries (p :: d2) ++ rest).length := by
      have := jencEntries_length (p :: d2)
      simp only [List.length_append]
      omega
    rw [parseEntriesF_complete (p :: d2) (by simp) _ rest hfuel]
    simp [jsObjFold_eq _ h]

theorem jencCEntries_length : ∀ d : List (String × List (String × String)),
    d.length ≤ (jencCEntries d).length := by
  intro d
  induction d with
  | nil => simp [jencCEntries]
  | cons p d ih =>
    cases d with
    | nil => simp [jencCEntries]
    | cons q rest =>
      simp only [jencCEntries, List.length_append, List.length_cons] at ih ⊢
      omega

theorem parseCEntriesF_complete : ∀ (d : List (String × List (String × String))),
    d ≠ [] → (∀ p ∈ d, (dictKeys p.2).Nodup) →
    ∀ (fuel : Nat) (rest : List Char), d.length ≤ fuel →
    parseCEntriesF fuel (jencCEntries d ++ rest) = some (d, rest) := by
  intro d
  induction d with
  | nil => intro h; exact absurd rfl h
  | cons p d ih =>
    intro _ hvals fuel rest hlen
    obtain ⟨f, rfl⟩ : ∃ f, fuel = f + 1 :=
      ⟨fuel - 1, by simp only [List.length_cons] at hlen; omega⟩
    have hv : (dictKeys p.2).Nodup := hvals p (by simp)
    cases d with
    | nil =>
      have hshape : jencCEntries [p] ++ rest =
          jstr p.1 ++ (':' :: (jencSubDict p.2 ++ ('\x7d' :: rest))) := by
        simp [jencCEntries, jencCEntry]
      rw [hshape]
      simp [parseCEntriesF, parseJStr_complete, parseSubDict_complete p.2 hv]
    | cons q d2 =>
      have hshape : jencCEntries (p :: q :: d2) ++ rest =
          jstr p.1 ++ (':' :: (jencSubDict p.2 ++
            (',' :: (jencCEntries (q :: d2) ++ rest)))) := by
        simp [jencCEntries, jencCEntry]
      rw [hshape]
      have hrec := ih (by simp) (fun r hr => hvals r (List.mem_cons_of_mem p hr)) f rest
        (by simp only [List.length_cons] at hlen ⊢; omega)
      simp [parseCEntriesF, parseJStr_complete, parseSubDict_complete p.2 hv, hrec]

theorem jencCEntries_head (p : String × List (String × String))
    (d : List (String × List (String × String))) :
    ∃ tl, jencCEntries (p :: d) = '"' :: tl := by
  cases d with
  | nil =>
    exact ⟨(escString p.1 ++ ['"']) ++ ((':' :: jencSubDict p.2) ++ ['\x7d']), by
      simp [jencCEntries, jencCEntry, jstr_cons]⟩
  | cons q d3 =>
    exact ⟨(escString p.1 ++ ['"']) ++ ((':' :: jencSubDict p.2) ++
      (',' :: jencCEntries (q :: d3))), by
      simp [jencCEntries, jencCEntry, jstr_cons]⟩

theorem parseContentDict_cons (r : List Char) :
    parseContentDict ('\x7b' :: '"' :: r) =
      (parseCEntriesF ('"' :: r).length ('"' :: r)).map
        (fun pr => (jsObjFold pr.1, pr.2)) := rfl

theorem parseContentDict_complete (d : List (String × List (String × String)))
    (h : (dictKeys d).Nodup) (hvals : ∀ p ∈ d, (dictKeys p.2).Nodup)
    (rest : List Char) :
    parseContentDict (jencContent d ++ rest) = some (d, rest) := by
  cases d with
  | nil => simp [jencContent, parseContentDict]
  | cons p d2 =>
    obtain ⟨tl, htl⟩ := jencCEntries_head p d2
    have hshape : jencContent (p :: d2) ++ rest = '\x7b' :: ('"' :: (tl ++ rest)) := by
      simp [jencContent, htl]
    rw [hshape, parseContentDict_cons]
    have harg : ('"' : Char) :: (tl ++ rest) = jencCEntries (p :: d2) ++ rest := by
      rw [htl]; simp
    rw [harg]
    have hfuel : (p :: d2).length ≤ (jencCEntries (p :: d2) ++ rest).length := by
      have := jencCEntries_length (p :: d2)
      simp only [List.length_append]
      omega
    rw [parseCEntriesF_complete (p :: d2) (by simp) hvals _ rest hfuel]
    simp [jsObjFold_eq _ h]

theorem parseGuideline_complete (g : Guideline)
    (h1 : (dictKeys g.content).Nodup)
    (h2 : ∀ p ∈ g.content, (dictKeys p.2).Nodup) (rest : List Char) :
    parseGuideline (serializeGuideline g ++ rest) = some (g, rest) := by
  obtain ⟨nm, u, c⟩ := g
  have hshape : serializeGuideline { name := nm, url := u, content := c } ++ rest =
      '\x7b' :: (jstr "name" ++ (':' :: (jstr nm ++ (',' :: (jstr "url" ++
        (':' :: (jstr u ++ (',' :: (jstr "content" ++
          (':' :: (jencContent c ++ ('\x7d' :: rest)))))))))))) := by
    simp [serializeGuideline]
  rw [hshape]
  simp [parseGuideline, parseJStr_complete,
    parseContentDict_complete c (by simpa using h1) (by simpa using h2)]

theorem classifyStep_dict_nodup (st : CState) (el : Elem)
    (h : (dictKeys st.dict).Nodup) :
    (dictKeys (classifyStep st el).dict).Nodup := by
  simp only [classifyStep]
  repeat' split
  all_goals first
    | exact h
    | exact dictInsert_keys_nodup _ _ _ h

theorem classifyLoop_dict_nodup : ∀ (els : List Elem) (st : CState),
    (dictKeys st.dict).Nodup → (dictKeys (classifyLoop els st).dict).Nodup := by
  intro els
  induction els with
  | nil => intro st h; exact h
  | cons e els ih => intro st h; exact ih _ (classifyStep_dict_nodup st e h)

theorem getSectionContent_dict_nodup (pg : SectionPage) :
    (dictKeys (getSectionContent pg).dict).Nodup := by
  have h : ∀ els,
      (dictKeys (classifyLoop els { head := "", body := "", dict := [] }).dict).Nodup :=
    fun els => classifyLoop_dict_nodup els _ (by simp [dictKeys])
  unfold getSectionContent
  split <;> rw [if_neg (by decide)] <;> exact h _

theorem guidelineFold_nodup :
    ∀ (tabs : List Tab) (acc : List (String × List (String × String))),
    (dictKeys acc).Nodup → (∀ p ∈ acc, (dictKeys p.2).Nodup) →
    (dictKeys (tabs.foldl guidelineStep acc)).Nodup ∧
    (∀ p ∈ tabs.foldl guidelineStep acc, (dictKeys p.2).Nodup) := by
  intro tabs
  induction tabs with
  | nil => intro acc h1 h2; exact ⟨h1, h2⟩
  | cons t ts ih =>
    intro acc h1 h2
    apply ih
    · simp only [guidelineStep]
      split
      · exact dictInsert_keys_nodup _ _ _ h1
      · exact h1
    · simp only [guidelineStep]
      split
      · intro p hp
        rcases dictInsert_mem hp with hv | hpacc
        · rw [hv]; exact getSectionContent_dict_nodup _
        · exact h2 p hpacc
      · exact h2

/-- C9: every record the controller appends to the sink is written by
`save_guideline` as one compact JSON line; parsing that line back as the
record structure recovers exactly the record — in particular the same name,
url, and the same section and subsection keys that were written. -/
theorem c9_sink_roundtrip (name url : String) (tabs : List Tab) :
    parseGuideline (sinkLine (getGuideline name url tabs)) =
      some (getGuideline name url tabs, ['\n']) := by
  have h := guidelineFold_nodup tabs [] (by simp [dictKeys]) (by simp)
  exact parseGuideline_complete _ h.1 h.2 ['\n']

end Mayo
